import Mathlib

/-!
# Migration engine: registry, version store and runner

A shallow embedding of `migrate.go` (package `migrate`).

* Go slices are lists, Go `int` is `Int`, a Go `error` is `Option Err`
  (`none` is `nil`), a nil function value is `none`.
* The database behind `*sqlx.DB` is an explicit state `DB`, threaded through
  every call.  The two statements the package itself issues
  (`CREATE TABLE IF NOT EXISTS "t" ( "c" INTEGER )` and
  `INSERT INTO t (c) VALUES ($1)`) have their SQL meaning on that state;
  caller SQL text is kept as text (the list `effects` of committed
  statements).
* Everything that can go wrong for reasons outside the program (connection
  loss, a driver refusing a statement, a failing commit, caller SQL that
  does not apply) is decided by a `Driver`: a function that sees the whole
  database state, including the history of calls, and the call being made.
* `DB.log` is a ghost record of the calls the program makes; it is what the
  ordering statements are about.
* The mutex `rw` and the unused `once` are not modelled: `Run` is sequential.
-/

namespace Migrate

/-! ## Errors -/

/-- Error values. `wrap ctx cause` is `fmt.Errorf(ctx + ": %w", cause)`. -/
inductive Err where
  | ErrNoRows
  | driver (msg : String)
  | noSuchTable (table : String)
  | noSuchColumn (table column : String)
  | wrap (ctx : String) (cause : Err)
  deriving DecidableEq, Repr

/-- The function `errors.Unwrap`: the cause of an error built with `%w`. -/
def Err.Unwrap : Err → Option Err
  | Err.wrap _ cause => some cause
  | _ => none

/-! ## Database state -/

/-- Calls made by the program, each with its result (`none` is success),
tagged with the identifier of the migration it is made for. `commit` also
carries the statements of the transaction being committed. -/
inductive Event where
  | createTable (res : Option Err)
  | lookup (id : Int) (res : Option Err)
  | begin (id : Int) (res : Option Err)
  | record (id : Int) (res : Option Err)
  | apply (id : Int) (res : Option Err)
  | commit (id : Int) (pending : List String) (res : Option Err)
  | rollback (id : Int)
  deriving DecidableEq, Repr

/-- A table: its name, its columns, and one entry per inserted row giving the
column that was written and the value (the other columns are NULL). -/
structure Table where
  name : String
  columns : List String
  rows : List (String × Int)
  deriving DecidableEq, Repr

/-- The database: its tables, the caller statements committed so far (oldest
first), and the ghost log of calls (oldest first). -/
structure DB where
  tables : List Table
  effects : List String
  log : List Event
  deriving DecidableEq, Repr

/-- The empty database. -/
def DB.empty : DB := { tables := [], effects := [], log := [] }

/-- Append an event to the ghost log. -/
def DB.emit (db : DB) (ev : Event) : DB := { db with log := db.log ++ [ev] }

/-- The statements the package issues itself. -/
inductive Stmt where
  | createTableIfNotExists (table column : String)
  | insertInto (table column : String)
  deriving DecidableEq, Repr

/-- The SQL meaning of a statement with its arguments. -/
def Stmt.eval : Stmt → List Int → DB → DB × Option Err
  | Stmt.createTableIfNotExists t c, _, db =>
    if db.tables.any (fun tb => tb.name == t) then (db, none)
    else ({ db with tables := db.tables ++ [{ name := t, columns := [c], rows := [] }] }, none)
  | Stmt.insertInto t c, [v], db =>
    match db.tables.find? (fun tb => tb.name == t) with
    | none => (db, some (Err.noSuchTable t))
    | some tb =>
      if c ∈ tb.columns then
        ({ db with tables := db.tables.map (fun x =>
            if x.name == t then { x with rows := x.rows ++ [(c, v)] } else x) }, none)
      else (db, some (Err.noSuchColumn t c))
  | Stmt.insertInto _ _, _, db => (db, some (Err.driver "wrong number of arguments"))

/-- A call that reaches the driver. -/
inductive Call where
  | Exec (q : Stmt) (args : List Int)
  | Get (q : Stmt) (args : List Int)
  | Beginx
  | TxExec (pending : List String) (query : String)
  | Commit (pending : List String)
  deriving DecidableEq, Repr

/-- The environment: for the current database state and a call, the error the
call fails with for a reason outside the program, if any. -/
abbrev Driver := DB → Call → Option Err

/-- A driver under which nothing fails for an outside reason. -/
def Driver.ok : Driver := fun _ _ => none

/-- The call `db.Exec(query, args...)` on the connection: runs outside any
transaction and takes effect at once. -/
def DB.Exec (drv : Driver) (db : DB) (q : Stmt) (args : List Int) : DB × Option Err :=
  match drv db (Call.Exec q args) with
  | some e => (db, some e)
  | none => q.eval args db

/-- The call `db.Get(&found, query, args...)`: runs the statement as a query
and scans the first row. Neither statement of the package returns rows, so
a statement that runs yields `sql.ErrNoRows`. -/
def DB.Get (drv : Driver) (db : DB) (q : Stmt) (args : List Int) : DB × Option Err :=
  match drv db (Call.Get q args) with
  | some e => (db, some e)
  | none =>
    match q.eval args db with
    | (db1, some e) => (db1, some e)
    | (db1, none) => (db1, some Err.ErrNoRows)

/-- A transaction handle `*sqlx.Tx`: the only capability it gives is running
statements inside the transaction. `pending` are the statements run so far. -/
structure Tx where
  fault : List String → String → Option Err
  pending : List String

/-- The call `tx.Exec(query)`. -/
def Tx.Exec (tx : Tx) (query : String) : Tx × Option Err :=
  match tx.fault tx.pending query with
  | some e => (tx, some e)
  | none => ({ tx with pending := tx.pending ++ [query] }, none)

/-- The call `db.Beginx()`. -/
def DB.Beginx (drv : Driver) (db : DB) : Except Err Tx :=
  match drv db Call.Beginx with
  | some e => Except.error e
  | none => Except.ok { fault := fun p q => drv db (Call.TxExec p q), pending := [] }

/-- The call `tx.Commit()`: on success the statements of the transaction
become part of the database; on failure they are discarded. -/
def Tx.Commit (drv : Driver) (db : DB) (tx : Tx) : DB × Option Err :=
  match drv db (Call.Commit tx.pending) with
  | some e => (db, some e)
  | none => ({ db with effects := db.effects ++ tx.pending }, none)

/-! ## Migrations and the registry -/

/-- The type `SqlxMigration`. -/
structure SqlxMigration where
  ID : Int
  Up : Option (Tx → Tx × Option Err)
  Down : Option (Tx → Tx × Option Err)

/-- The function `QueryMigration`. The parameter `id` is not used and `ID`
keeps its zero value. -/
def QueryMigration (id upQuery downQuery : String) : SqlxMigration :=
  let queryFn := fun (query : String) =>
    if query = "" then (none : Option (Tx → Tx × Option Err))
    else some (fun tx => tx.Exec query)
  { ID := 0, Up := queryFn upQuery, Down := queryFn downQuery }

/-- Modelled from the spec: the method `Migrate` that `run` calls is not
declared in the source. It executes the migration's apply action against the
transaction; an absent action is a no-op. -/
def SqlxMigration.Migrate (m : SqlxMigration) (tx : Tx) : Tx × Option Err :=
  match m.Up with
  | none => (tx, none)
  | some up => up tx

/-- The type `SqlxMigrate`. -/
structure SqlxMigrate where
  Migrations : List SqlxMigration

/-- The function `New`. -/
def New : SqlxMigrate := { Migrations := [] }

/-- The method `Add`. The source writes the identifier as `m.id`; the type
declares the one identifier field as `ID`. -/
def SqlxMigrate.Add (s : SqlxMigrate) (m : SqlxMigration) : SqlxMigrate :=
  { Migrations := s.Migrations ++ [{ m with ID := (s.Migrations.length : Int) }] }

/-- The method `TableName`. -/
def SqlxMigrate.TableName (_s : SqlxMigrate) : String := "migrations"

/-- The method `ColumnName`. -/
def SqlxMigrate.ColumnName (_s : SqlxMigrate) : String := "version"

/-- The method `createMigrationTable`. -/
def SqlxMigrate.createMigrationTable (drv : Driver) (s : SqlxMigrate) (db : DB) :
    DB × Option Err :=
  match DB.Exec drv db (Stmt.createTableIfNotExists s.TableName s.ColumnName) [] with
  | (db1, some err) =>
    (db1.emit (Event.createTable (some err)), some (Err.wrap "creating migrations table" err))
  | (db1, none) => (db1.emit (Event.createTable none), none)

/-- The method `run`: one migration in its own transaction. The applied
record is written with `db.Exec`, on the connection, with the literal text
`INSERT INTO migrations (id) VALUES ($1)`. -/
def SqlxMigrate.run (drv : Driver) (_s : SqlxMigrate) (db : DB) (m : SqlxMigration) :
    DB × Option Err :=
  let errorf := fun (err : Err) => Err.wrap "running migration" err
  match DB.Beginx drv db with
  | Except.error err => (db.emit (Event.begin m.ID (some err)), some (errorf err))
  | Except.ok tx =>
    match DB.Exec drv (db.emit (Event.begin m.ID none))
        (Stmt.insertInto "migrations" "id") [m.ID] with
    | (db1, some err) =>
      ((db1.emit (Event.record m.ID (some err))).emit (Event.rollback m.ID), some (errorf err))
    | (db1, none) =>
      match m.Migrate tx with
      | (_, some err) =>
        (((db1.emit (Event.record m.ID none)).emit (Event.apply m.ID (some err))).emit
          (Event.rollback m.ID), some (errorf err))
      | (tx1, none) =>
        match Tx.Commit drv ((db1.emit (Event.record m.ID none)).emit (Event.apply m.ID none))
            tx1 with
        | (db2, some err) =>
          (db2.emit (Event.commit m.ID tx1.pending (some err)), some (errorf err))
        | (db2, none) => (db2.emit (Event.commit m.ID tx1.pending none), none)

/-- Modelled from the spec: `Run` calls `s.runMigration`, which the source
does not declare; the per-migration step it declares is `run`. -/
def SqlxMigrate.runMigration (drv : Driver) (s : SqlxMigrate) (db : DB) (m : SqlxMigration) :
    DB × Option Err :=
  s.run drv db m

/-- The body of the loop of `Run` over the migrations still to visit. -/
def SqlxMigrate.loop (drv : Driver) (s : SqlxMigrate) : List SqlxMigration → DB → DB × Option Err
  | [], db => (db, none)
  | m :: rest, db =>
    match DB.Get drv db (Stmt.createTableIfNotExists s.TableName s.ColumnName) [m.ID] with
    | (db1, err) =>
      if err ≠ none ∧ err ≠ some Err.ErrNoRows then
        (db1.emit (Event.lookup m.ID err), err.map (Err.wrap "looking up migration by id"))
      else
        match s.runMigration drv (db1.emit (Event.lookup m.ID err)) m with
        | (db2, some e) => (db2, some e)
        | (db2, none) => SqlxMigrate.loop drv s rest db2

/-- The call `sqlx.NewDb(sqlDB, dialect)`: the same connection, bound to a
driver name. -/
def NewDb (sqlDB : DB) (_dialect : String) : DB := sqlDB

/-- The method `Run`. -/
def SqlxMigrate.Run (drv : Driver) (s : SqlxMigrate) (sqlDB : DB) (dialect : String) :
    DB × Option Err :=
  let db := NewDb sqlDB dialect
  match s.createMigrationTable drv db with
  | (db1, some err) => (db1, some err)
  | (db1, none) => s.loop drv s.Migrations db1

/-! ## Observations -/

/-- The rows of the store's table, as (column, value) entries. -/
def storeRows (s : SqlxMigrate) (db : DB) : List (String × Int) :=
  match db.tables.find? (fun tb => tb.name == s.TableName) with
  | none => []
  | some tb => tb.rows

/-- Modelled from the spec: the applied-ids record is not read anywhere in the
source. It is the values of the store's identifier column (`ColumnName`)
in the store's table (`TableName`). -/
def appliedIDs (s : SqlxMigrate) (db : DB) : List Int :=
  ((storeRows s db).filter (fun r => r.1 == s.ColumnName)).map (fun r => r.2)

/-- The events logged after the state `before` was reached. -/
def newEvents (before after : DB) : List Event := after.log.drop before.log.length

/-- The identifiers whose apply action was invoked, in order of invocation. -/
def appliesOf (t : List Event) : List Int :=
  t.filterMap (fun ev => match ev with
    | Event.apply i _ => some i
    | _ => none)

/-- The identifier of the migration a call is made for. -/
def Event.id? : Event → Option Int
  | Event.createTable _ => none
  | Event.lookup i _ => some i
  | Event.begin i _ => some i
  | Event.record i _ => some i
  | Event.apply i _ => some i
  | Event.commit i _ _ => some i
  | Event.rollback i => some i

/-- Transactions opened in a trace: successful `db.Beginx()` calls. -/
def opened (t : List Event) : Nat :=
  t.countP (fun ev => match ev with
    | Event.begin _ none => true
    | _ => false)

/-- Transactions finished in a trace: `tx.Commit()` calls (a commit that
fails also ends its transaction) and `tx.Rollback()` calls. -/
def closed (t : List Event) : Nat :=
  t.countP (fun ev => match ev with
    | Event.commit _ _ _ => true
    | Event.rollback _ => true
    | _ => false)

/-- Executing migration `k` failed with cause `e`: one of the calls of `run`
for `k` (begin, record, apply, commit) returned `e`. -/
def failsAt (k : Int) (e : Err) (t : List Event) : Prop :=
  Event.begin k (some e) ∈ t ∨ Event.record k (some e) ∈ t ∨
    Event.apply k (some e) ∈ t ∨ ∃ p, Event.commit k p (some e) ∈ t

/-- Add the migrations of a list, in order. -/
def addAll (s : SqlxMigrate) (ms : List SqlxMigration) : SqlxMigrate :=
  ms.foldl SqlxMigrate.Add s

/-! ## Scenarios -/

/-- Migration 0 of the spec's scenario: create table `items`. -/
def createItems : SqlxMigration :=
  QueryMigration "0" "CREATE TABLE IF NOT EXISTS items (id INTEGER)" ""

/-- Migration 1 of the spec's scenario: add column `items.price`. -/
def addPrice : SqlxMigration :=
  QueryMigration "1" "ALTER TABLE items ADD COLUMN price INTEGER" ""

/-- A migration written as code that adds a row; it succeeds every time it is
applied. -/
def seedItems : SqlxMigration :=
  { ID := 0, Up := some (fun tx => tx.Exec "INSERT INTO items (id) VALUES (1)"), Down := none }

/-- A migration whose apply action always fails with the same cause. -/
def alwaysFails : SqlxMigration :=
  { ID := 0, Up := some (fun tx => (tx, some (Err.driver "boom"))), Down := none }

/-- A database that already has a table `migrations` with a column `id`, the
column the insert of `run` names. -/
def legacyDB : DB :=
  { tables := [{ name := "migrations", columns := ["id"], rows := [] }], effects := [], log := [] }

/-- A driver under which every `tx.Commit()` fails. -/
def commitFails : Driver := fun _ c =>
  match c with
  | Call.Commit _ => some (Err.driver "commit failed")
  | _ => none

/-- A driver under which the lookup made for migration 1 fails. -/
def lookupFailsAt1 : Driver := fun _ c =>
  match c with
  | Call.Get _ args => if args = [1] then some (Err.driver "connection lost") else none
  | _ => none

/-- The state and result after one `Run` of the two-migration scenario on
the database `legacyDB`. -/
def firstRun : DB × Option Err :=
  (addAll New [createItems, seedItems]).Run Driver.ok legacyDB "sqlite3"

/-- The state and result after a second `Run` right after `firstRun`. -/
def secondRun : DB × Option Err :=
  (addAll New [createItems, seedItems]).Run Driver.ok firstRun.1 "sqlite3"

/-! ## Shape of a run -/

/-- The calls of one `run` for identifier `i`: the trace, the result and the
statements it commits. -/
inductive Step (i : Int) : List Event → Option Err → List String → Prop
  | beginFail (e : Err) :
    Step i [Event.begin i (some e)] (some (Err.wrap "running migration" e)) []
  | recordFail (e : Err) :
    Step i [Event.begin i none, Event.record i (some e), Event.rollback i]
      (some (Err.wrap "running migration" e)) []
  | applyFail (e : Err) :
    Step i [Event.begin i none, Event.record i none, Event.apply i (some e), Event.rollback i]
      (some (Err.wrap "running migration" e)) []
  | commitFail (p : List String) (e : Err) :
    Step i [Event.begin i none, Event.record i none, Event.apply i none,
      Event.commit i p (some e)] (some (Err.wrap "running migration" e)) []
  | ok (p : List String) :
    Step i [Event.begin i none, Event.record i none, Event.apply i none,
      Event.commit i p none] none p

/-- The calls of the loop of `Run` over migrations with the given
identifiers: the trace, the result and the statements it commits. -/
inductive Shape : List Int → List Event → Option Err → List String → Prop
  | done : Shape [] [] none []
  | lookupFail (i : Int) (ids : List Int) (e : Err) (h : e ≠ Err.ErrNoRows) :
    Shape (i :: ids) [Event.lookup i (some e)]
      (some (Err.wrap "looking up migration by id" e)) []
  | stepFail (i : Int) (ids : List Int) (b : List Event) (e : Err) (eff : List String)
      (h : Step i b (some e) eff) :
    Shape (i :: ids) (Event.lookup i (some Err.ErrNoRows) :: b) (some e) eff
  | stepOk (i : Int) (ids : List Int) (b t : List Event) (err : Option Err)
      (eff eff1 : List String) (h : Step i b none eff) (ht : Shape ids t err eff1) :
    Shape (i :: ids) (Event.lookup i (some Err.ErrNoRows) :: (b ++ t)) err (eff ++ eff1)

/-- The calls of `Run`: the table bootstrap, then the loop. -/
inductive RunShape : List Int → List Event → Option Err → List String → Prop
  | createFail (ids : List Int) (e : Err) :
    RunShape ids [Event.createTable (some e)]
      (some (Err.wrap "creating migrations table" e)) []
  | looped (ids : List Int) (t : List Event) (err : Option Err) (eff : List String)
      (h : Shape ids t err eff) :
    RunShape ids (Event.createTable none :: t) err eff

/-! ## Theorems -/

theorem eval_log (q : Stmt) (args : List Int) (db : DB) :
    (q.eval args db).1.log = db.log ∧ (q.eval args db).1.effects = db.effects := by
  cases q with
  | createTableIfNotExists t c =>
    simp only [Stmt.eval]
    split <;> simp
  | insertInto t c =>
    match args with
    | [] => simp [Stmt.eval]
    | [v] =>
      simp only [Stmt.eval]
      split
      · simp
      · split <;> simp
    | _ :: _ :: _ => simp [Stmt.eval]

theorem Exec_log (drv : Driver) (db : DB) (q : Stmt) (args : List Int) :
    (DB.Exec drv db q args).1.log = db.log ∧
      (DB.Exec drv db q args).1.effects = db.effects := by
  unfold DB.Exec
  split
  · simp
  · exact eval_log q args db

theorem Get_log (drv : Driver) (db : DB) (q : Stmt) (args : List Int) :
    (DB.Get drv db q args).1.log = db.log ∧
      (DB.Get drv db q args).1.effects = db.effects := by
  have h := eval_log q args db
  unfold DB.Get
  split
  · simp
  · split
    · rename_i heq
      rw [heq] at h
      exact h
    · rename_i heq
      rw [heq] at h
      exact h

theorem Get_res (drv : Driver) (db : DB) (q : Stmt) (args : List Int) :
    (DB.Get drv db q args).2 ≠ none := by
  unfold DB.Get
  split
  · simp
  · split <;> simp

theorem run_shape (drv : Driver) (s : SqlxMigrate) (db : DB) (m : SqlxMigration) :
    ∃ t eff, (s.run drv db m).1.log = db.log ++ t ∧
      (s.run drv db m).1.effects = db.effects ++ eff ∧
      Step m.ID t (s.run drv db m).2 eff := by
  unfold SqlxMigrate.run
  simp only
  cases hb : DB.Beginx drv db with
  | error err =>
    exact ⟨_, [], by simp [DB.emit], by simp [DB.emit], Step.beginFail err⟩
  | ok tx =>
    simp only
    have hx := Exec_log drv (db.emit (Event.begin m.ID none))
      (Stmt.insertInto "migrations" "id") [m.ID]
    rcases hE : DB.Exec drv (db.emit (Event.begin m.ID none))
      (Stmt.insertInto "migrations" "id") [m.ID] with ⟨db1, _ | e⟩
    · rw [hE] at hx
      simp only [DB.emit] at hx
      simp only
      rcases hM : m.Migrate tx with ⟨tx1, _ | e⟩
      · simp only
        unfold Tx.Commit
        cases hc : drv ((db1.emit (Event.record m.ID none)).emit (Event.apply m.ID none))
            (Call.Commit tx1.pending) with
        | none =>
          refine ⟨_, tx1.pending, ?_, ?_, Step.ok tx1.pending⟩
          · simp [DB.emit, hx.1]
          · simp [DB.emit, hx.2]
        | some e =>
          refine ⟨_, [], ?_, ?_, Step.commitFail tx1.pending e⟩
          · simp [DB.emit, hx.1]
          · simp [DB.emit, hx.2]
      · refine ⟨_, [], ?_, ?_, Step.applyFail e⟩
        · simp [DB.emit, hx.1]
        · simp [DB.emit, hx.2]
    · rw [hE] at hx
      simp only [DB.emit] at hx
      refine ⟨_, [], ?_, ?_, Step.recordFail e⟩
      · simp [DB.emit, hx.1]
      · simp [DB.emit, hx.2]

theorem loop_shape (drv : Driver) (s : SqlxMigrate) (ms : List SqlxMigration) (db : DB) :
    ∃ t eff, (s.loop drv ms db).1.log = db.log ++ t ∧
      (s.loop drv ms db).1.effects = db.effects ++ eff ∧
      Shape (ms.map (fun m => m.ID)) t (s.loop drv ms db).2 eff := by
  induction ms generalizing db with
  | nil => exact ⟨[], [], by simp [SqlxMigrate.loop], by simp [SqlxMigrate.loop], Shape.done⟩
  | cons m rest ih =>
    have hg := Get_log drv db (Stmt.createTableIfNotExists s.TableName s.ColumnName) [m.ID]
    have hr := Get_res drv db (Stmt.createTableIfNotExists s.TableName s.ColumnName) [m.ID]
    unfold SqlxMigrate.loop
    rcases hG : DB.Get drv db (Stmt.createTableIfNotExists s.TableName s.ColumnName) [m.ID]
      with ⟨db1, err⟩
    rw [hG] at hg hr
    simp only at hg hr
    simp only
    cases err with
    | none => exact absurd rfl hr
    | some e =>
      by_cases he : e = Err.ErrNoRows
      · subst he
        simp only [ne_eq, not_true_eq_false, and_false, if_false]
        obtain ⟨b, eff, hl, hf, hs⟩ :=
          run_shape drv s (db1.emit (Event.lookup m.ID (some Err.ErrNoRows))) m
        unfold SqlxMigrate.runMigration
        rcases hR : s.run drv (db1.emit (Event.lookup m.ID (some Err.ErrNoRows))) m
          with ⟨db2, _ | e2⟩
        · rw [hR] at hl hf hs
          simp only at hl hf hs
          simp only
          obtain ⟨t, eff1, hl1, hf1, hs1⟩ := ih db2
          refine ⟨Event.lookup m.ID (some Err.ErrNoRows) :: (b ++ t), eff ++ eff1, ?_, ?_, ?_⟩
          · rw [hl1, hl]
            simp [DB.emit, hg.1]
          · rw [hf1, hf]
            simp [DB.emit, hg.2]
          · exact Shape.stepOk m.ID _ b t _ eff eff1 hs hs1
        · rw [hR] at hl hf hs
          simp only at hl hf hs
          simp only
          refine ⟨Event.lookup m.ID (some Err.ErrNoRows) :: b, eff, ?_, ?_, ?_⟩
          · rw [hl]
            simp [DB.emit, hg.1]
          · rw [hf]
            simp [DB.emit, hg.2]
          · exact Shape.stepFail m.ID _ b e2 eff hs
      · have hc : (some e ≠ none ∧ some e ≠ some Err.ErrNoRows) := by simp [he]
        rw [if_pos hc]
        refine ⟨[Event.lookup m.ID (some e)], [], ?_, ?_, ?_⟩
        · simp [DB.emit, hg.1]
        · simp [DB.emit, hg.2]
        · exact Shape.lookupFail m.ID _ e he

theorem Run_shape (drv : Driver) (s : SqlxMigrate) (db : DB) (dialect : String) :
    ∃ t eff, (s.Run drv db dialect).1.log = db.log ++ t ∧
      (s.Run drv db dialect).1.effects = db.effects ++ eff ∧
      RunShape (s.Migrations.map (fun m => m.ID)) t (s.Run drv db dialect).2 eff := by
  have hx := Exec_log drv db (Stmt.createTableIfNotExists s.TableName s.ColumnName) []
  unfold SqlxMigrate.Run SqlxMigrate.createMigrationTable NewDb
  rcases hE : DB.Exec drv db (Stmt.createTableIfNotExists s.TableName s.ColumnName) []
    with ⟨db1, _ | e⟩
  · rw [hE] at hx
    simp only at hx
    simp only [hE]
    obtain ⟨t, eff, hl, hf, hs⟩ := loop_shape drv s s.Migrations (db1.emit (Event.createTable none))
    refine ⟨Event.createTable none :: t, eff, ?_, ?_, RunShape.looped _ t _ eff hs⟩
    · rw [hl]
      simp [DB.emit, hx.1]
    · rw [hf]
      simp [DB.emit, hx.2]
  · rw [hE] at hx
    simp only at hx
    simp only [hE]
    refine ⟨[Event.createTable (some e)], [], ?_, ?_, RunShape.createFail _ e⟩
    · simp [DB.emit, hx.1]
    · simp [DB.emit, hx.2]

theorem Run_newEvents (drv : Driver) (s : SqlxMigrate) (db : DB) (dialect : String) :
    ∃ eff, (s.Run drv db dialect).1.effects = db.effects ++ eff ∧
      RunShape (s.Migrations.map (fun m => m.ID)) (newEvents db (s.Run drv db dialect).1)
        (s.Run drv db dialect).2 eff := by
  obtain ⟨t, eff, hl, hf, hs⟩ := Run_shape drv s db dialect
  refine ⟨eff, hf, ?_⟩
  have : newEvents db (s.Run drv db dialect).1 = t := by
    unfold newEvents
    rw [hl]
    simp
  rw [this]
  exact hs

/-! ## Consequences of the shape of a run -/

theorem Step_applies (i : Int) (b : List Event) (err : Option Err) (eff : List String)
    (h : Step i b err eff) : appliesOf b = [] ∨ appliesOf b = [i] := by
  cases h <;> simp [appliesOf]

theorem Shape_applies_prefix (ids : List Int) (t : List Event) (err : Option Err)
    (eff : List String) (h : Shape ids t err eff) : appliesOf t <+: ids := by
  induction h with
  | done => simp [appliesOf]
  | lookupFail i ids e h => simp [appliesOf]
  | stepFail i ids b e eff h =>
    rcases Step_applies i b _ eff h with h1 | h1
    · have : appliesOf (Event.lookup i (some Err.ErrNoRows) :: b) = [] := by
        simpa [appliesOf] using h1
      rw [this]
      exact List.nil_prefix
    · have : appliesOf (Event.lookup i (some Err.ErrNoRows) :: b) = [i] := by
        simpa [appliesOf] using h1
      rw [this]
      exact List.prefix_cons_inj i |>.mpr List.nil_prefix
  | stepOk i ids b t err eff eff1 h ht ih =>
    cases h
    have : appliesOf (Event.lookup i (some Err.ErrNoRows) ::
        ([Event.begin i none, Event.record i none, Event.apply i none,
          Event.commit i eff none] ++ t)) = i :: appliesOf t := by
      simp [appliesOf]
    rw [this]
    exact (List.prefix_cons_inj i).mpr ih

theorem Step_balance (i : Int) (b : List Event) (err : Option Err) (eff : List String)
    (h : Step i b err eff) (n : Nat) :
    closed (b.take n) ≤ opened (b.take n) ∧ opened (b.take n) ≤ closed (b.take n) + 1 := by
  cases h <;> rcases n with _ | _ | _ | _ | _ | n <;> simp [opened, closed, List.countP_cons]

theorem Shape_balance (ids : List Int) (t : List Event) (err : Option Err)
    (eff : List String) (h : Shape ids t err eff) (n : Nat) :
    closed (t.take n) ≤ opened (t.take n) ∧ opened (t.take n) ≤ closed (t.take n) + 1 := by
  induction h generalizing n with
  | done => simp [opened, closed]
  | lookupFail i ids e h => rcases n with _ | n <;> simp [opened, closed, List.countP_cons]
  | stepFail i ids b e eff h =>
    rcases n with _ | n
    · simp [opened, closed]
    · have := Step_balance i b _ eff h n
      simpa [opened, closed, List.countP_cons] using this
  | stepOk i ids b t err eff eff1 h ht ih =>
    cases h
    rcases n with _ | _ | _ | _ | _ | n
    · simp [opened, closed]
    · simp [opened, closed, List.countP_cons]
    · simp [opened, closed, List.countP_cons]
    · simp [opened, closed, List.countP_cons]
    · simp [opened, closed, List.countP_cons]
    · have := ih n
      simp only [opened, closed] at this ⊢
      simp only [List.cons_append, List.nil_append, List.take_succ_cons, List.countP_cons]
      simp only [Bool.false_eq_true, if_false, if_true, Nat.add_zero]
      omega

theorem strip_head (x : Event) (l a rest : List Event) (i : Int) (r : Option Err)
    (hx : ∀ j q, x ≠ Event.apply j q) (h : x :: l = a ++ Event.apply i r :: rest) :
    ∃ a1, a = x :: a1 ∧ l = a1 ++ Event.apply i r :: rest := by
  cases a with
  | nil =>
    simp only [List.nil_append, List.cons.injEq] at h
    exact absurd h.1 (hx i r)
  | cons y a1 =>
    simp only [List.cons_append, List.cons.injEq] at h
    exact ⟨a1, by rw [h.1], h.2⟩

theorem appliesOf_two (a b c : List Event) (i j : Int) (r q : Option Err) :
    2 ≤ (appliesOf (a ++ Event.apply i r :: (b ++ Event.apply j q :: c))).length := by
  simp only [appliesOf, List.filterMap_append, List.filterMap_cons, List.length_append,
    List.length_cons]
  omega

theorem Step_one_apply (i : Int) (t : List Event) (err : Option Err) (eff : List String)
    (h : Step i t err eff) (a b c : List Event) (i1 j : Int) (r q : Option Err)
    (ht : t = a ++ Event.apply i1 r :: (b ++ Event.apply j q :: c)) : False := by
  have h2 := appliesOf_two a b c i1 j r q
  rw [← ht] at h2
  rcases Step_applies i t err eff h with h1 | h1 <;> rw [h1] at h2 <;> simp at h2

theorem Shape_commit_between (ids : List Int) (t : List Event) (err : Option Err)
    (eff : List String) (h : Shape ids t err eff) (a b c : List Event) (i j : Int)
    (r q : Option Err) (ht : t = a ++ Event.apply i r :: (b ++ Event.apply j q :: c)) :
    ∃ p, Event.commit i p none ∈ b := by
  induction h generalizing a with
  | done => simp at ht
  | lookupFail i0 ids e h =>
    obtain ⟨a1, _, h1⟩ := strip_head _ _ a _ i r (by simp) ht
    simp at h1
  | stepFail i0 ids b0 e eff h =>
    obtain ⟨a1, _, h1⟩ := strip_head _ _ a _ i r (by simp) ht
    exact (Step_one_apply i0 b0 _ eff h a1 b c i j r q h1).elim
  | stepOk i0 ids b0 t0 err eff eff1 h ht0 ih =>
    cases h
    simp only [List.cons_append, List.nil_append] at ht
    obtain ⟨a1, _, h1⟩ := strip_head _ _ a _ i r (by simp) ht
    obtain ⟨a2, _, h2⟩ := strip_head _ _ a1 _ i r (by simp) h1
    obtain ⟨a3, _, h3⟩ := strip_head _ _ a2 _ i r (by simp) h2
    cases a3 with
    | nil =>
      simp only [List.nil_append, List.cons.injEq, Event.apply.injEq] at h3
      obtain ⟨⟨hi, _⟩, h4⟩ := h3
      obtain ⟨b1, hb, _⟩ := strip_head _ _ b _ j q (by simp) h4
      refine ⟨eff, ?_⟩
      rw [hb, ← hi]
      exact List.mem_cons_self _ _
    | cons y a4 =>
      simp only [List.cons_append, List.cons.injEq] at h3
      obtain ⟨a5, _, h5⟩ := strip_head _ _ a4 _ i r (by simp) h3.2
      exact ih a5 h5

theorem Step_fail_cause (i : Int) (b : List Event) (e0 : Err) (eff : List String)
    (h : Step i b (some e0) eff) (k : Int) (e : Err) (hk : failsAt k e b) :
    k = i ∧ e0 = Err.wrap "running migration" e := by
  unfold failsAt at hk
  cases h <;> simp at hk <;> simp [hk]

theorem Step_ok_no_fail (i : Int) (b : List Event) (eff : List String)
    (h : Step i b none eff) (k : Int) (e : Err) : ¬ failsAt k e b := by
  unfold failsAt
  cases h
  simp

theorem Step_ids (i : Int) (b : List Event) (err : Option Err) (eff : List String)
    (h : Step i b err eff) (j : Int) (r : Option Err) (hj : Event.apply j r ∈ b) : j = i := by
  cases h <;> simp at hj <;> simp [hj]

theorem failsAt_cons_lookup (k : Int) (e : Err) (i : Int) (r : Option Err) (t : List Event) :
    failsAt k e (Event.lookup i r :: t) ↔ failsAt k e t := by
  simp [failsAt]

theorem failsAt_append (k : Int) (e : Err) (t u : List Event) :
    failsAt k e (t ++ u) ↔ failsAt k e t ∨ failsAt k e u := by
  simp only [failsAt, List.mem_append]
  constructor
  · rintro (h | h | h | ⟨p, h⟩)
    · rcases h with h | h
      · exact Or.inl (Or.inl h)
      · exact Or.inr (Or.inl h)
    · rcases h with h | h
      · exact Or.inl (Or.inr (Or.inl h))
      · exact Or.inr (Or.inr (Or.inl h))
    · rcases h with h | h
      · exact Or.inl (Or.inr (Or.inr (Or.inl h)))
      · exact Or.inr (Or.inr (Or.inr (Or.inl h)))
    · rcases h with h | h
      · exact Or.inl (Or.inr (Or.inr (Or.inr ⟨p, h⟩)))
      · exact Or.inr (Or.inr (Or.inr (Or.inr ⟨p, h⟩)))
  · rintro ((h | h | h | ⟨p, h⟩) | (h | h | h | ⟨p, h⟩))
    · exact Or.inl (Or.inl h)
    · exact Or.inr (Or.inl (Or.inl h))
    · exact Or.inr (Or.inr (Or.inl (Or.inl h)))
    · exact Or.inr (Or.inr (Or.inr ⟨p, Or.inl h⟩))
    · exact Or.inl (Or.inr h)
    · exact Or.inr (Or.inl (Or.inr h))
    · exact Or.inr (Or.inr (Or.inl (Or.inr h)))
    · exact Or.inr (Or.inr (Or.inr ⟨p, Or.inr h⟩))

theorem Shape_failsAt_mem (ids : List Int) (t : List Event) (err : Option Err)
    (eff : List String) (h : Shape ids t err eff) (k : Int) (e : Err)
    (hk : failsAt k e t) : k ∈ ids := by
  induction h with
  | done => simp [failsAt] at hk
  | lookupFail i ids e0 h => simp [failsAt] at hk
  | stepFail i ids b e0 eff h =>
    rw [failsAt_cons_lookup] at hk
    rw [(Step_fail_cause i b e0 eff h k e hk).1]
    exact List.mem_cons_self _ _
  | stepOk i ids b t err eff eff1 h ht ih =>
    rw [failsAt_cons_lookup, failsAt_append] at hk
    rcases hk with hk | hk
    · exact absurd hk (Step_ok_no_fail i b eff h k e)
    · exact List.mem_cons_of_mem _ (ih hk)

/-- Stop on the first failure: when executing migration `k` fails with cause
`e`, the loop returns `running migration: e`, and with ascending identifiers
no apply action of a later identifier has been invoked. -/
theorem Shape_failsAt (ids : List Int) (t : List Event) (err : Option Err)
    (eff : List String) (h : Shape ids t err eff) (k : Int) (e : Err)
    (hk : failsAt k e t) :
    err = some (Err.wrap "running migration" e) ∧
      (ids.Pairwise (fun x y => x < y) → ∀ j r, Event.apply j r ∈ t → j ≤ k) := by
  induction h with
  | done => simp [failsAt] at hk
  | lookupFail i ids e0 h => simp [failsAt] at hk
  | stepFail i ids b e0 eff h =>
    rw [failsAt_cons_lookup] at hk
    obtain ⟨h1, h2⟩ := Step_fail_cause i b e0 eff h k e hk
    refine ⟨by rw [h2], ?_⟩
    intro _ j r hj
    simp only [List.mem_cons] at hj
    rcases hj with hj | hj
    · simp at hj
    · rw [Step_ids i b _ eff h j r hj, h1]
  | stepOk i ids b t err eff eff1 h ht ih =>
    rw [failsAt_cons_lookup, failsAt_append] at hk
    rcases hk with hk | hk
    · exact absurd hk (Step_ok_no_fail i b eff h k e)
    · obtain ⟨h1, h2⟩ := ih hk
      refine ⟨h1, ?_⟩
      intro hp j r hj
      rw [List.pairwise_cons] at hp
      simp only [List.mem_cons, List.mem_append] at hj
      rcases hj with hj | hj | hj
      · simp at hj
      · rw [Step_ids i b _ eff h j r hj]
        exact le_of_lt (hp.1 k (Shape_failsAt_mem ids t err eff1 ht k e hk))
      · exact h2 hp.2 j r hj

theorem Step_no_lookup (i : Int) (b : List Event) (err : Option Err) (eff : List String)
    (h : Step i b err eff) (k : Int) (r : Option Err) : Event.lookup k r ∉ b := by
  cases h <;> simp

theorem Step_begins (i : Int) (b : List Event) (err : Option Err) (eff : List String)
    (h : Step i b err eff) : ∃ r, Event.begin i r ∈ b := by
  cases h
  · exact ⟨_, List.mem_cons_self _ _⟩
  · exact ⟨_, List.mem_cons_self _ _⟩
  · exact ⟨_, List.mem_cons_self _ _⟩
  · exact ⟨_, List.mem_cons_self _ _⟩
  · exact ⟨_, List.mem_cons_self _ _⟩

theorem Step_commit_eff (i : Int) (b : List Event) (err : Option Err) (eff : List String)
    (h : Step i b err eff) (j : Int) (p : List String)
    (hj : Event.commit j p none ∈ b) : p = eff := by
  cases h <;> simp at hj
  exact hj.2

/-- A lookup that fails with an error other than "no rows" ends the loop with
that error wrapped; the apply actions invoked until then belong to the
migrations that come before it in the registry. -/
theorem Shape_lookup_fail (ids : List Int) (t : List Event) (err : Option Err)
    (eff : List String) (h : Shape ids t err eff) (k : Int) (e : Err)
    (hk : Event.lookup k (some e) ∈ t) (hne : e ≠ Err.ErrNoRows) :
    err = some (Err.wrap "looking up migration by id" e) ∧
      ∃ before after, ids = before ++ k :: after ∧ appliesOf t = before := by
  induction h with
  | done => simp at hk
  | lookupFail i ids e0 h =>
    simp only [List.mem_singleton, Event.lookup.injEq, Option.some.injEq] at hk
    obtain ⟨h1, h2⟩ := hk
    subst h1 h2
    exact ⟨rfl, [], ids, by simp, by simp [appliesOf]⟩
  | stepFail i ids b e0 eff h =>
    simp only [List.mem_cons, Event.lookup.injEq, Option.some.injEq] at hk
    rcases hk with hk | hk
    · exact absurd hk.2 hne
    · exact absurd hk (Step_no_lookup i b _ eff h k _)
  | stepOk i ids b t err eff eff1 h ht ih =>
    simp only [List.mem_cons, List.mem_append, Event.lookup.injEq, Option.some.injEq] at hk
    rcases hk with hk | hk | hk
    · exact absurd hk.2 hne
    · exact absurd hk (Step_no_lookup i b _ eff h k _)
    · obtain ⟨h1, before, after, h2, h3⟩ := ih hk
      refine ⟨h1, i :: before, after, by rw [h2]; rfl, ?_⟩
      cases h
      rw [← h3]
      simp [appliesOf]

/-- A lookup that reports "no rows" is followed by the execution of its
migration: `db.Beginx()` is called for it. -/
theorem Shape_norows_continues (ids : List Int) (t : List Event) (err : Option Err)
    (eff : List String) (h : Shape ids t err eff) (k : Int)
    (hk : Event.lookup k (some Err.ErrNoRows) ∈ t) : ∃ r, Event.begin k r ∈ t := by
  induction h with
  | done => simp at hk
  | lookupFail i ids e0 h =>
    simp only [List.mem_singleton, Event.lookup.injEq, Option.some.injEq] at hk
    exact absurd hk.2.symm h
  | stepFail i ids b e0 eff h =>
    simp only [List.mem_cons, Event.lookup.injEq] at hk
    rcases hk with hk | hk
    · obtain ⟨r, hr⟩ := Step_begins i b _ eff h
      exact ⟨r, by rw [hk.1]; exact List.mem_cons_of_mem _ hr⟩
    · exact absurd hk (Step_no_lookup i b _ eff h k _)
  | stepOk i ids b t err eff eff1 h ht ih =>
    simp only [List.mem_cons, List.mem_append, Event.lookup.injEq] at hk
    rcases hk with hk | hk | hk
    · obtain ⟨r, hr⟩ := Step_begins i b _ eff h
      exact ⟨r, by rw [hk.1]; exact List.mem_cons_of_mem _ (List.mem_append_left _ hr)⟩
    · exact absurd hk (Step_no_lookup i b _ eff h k _)
    · obtain ⟨r, hr⟩ := ih hk
      exact ⟨r, List.mem_cons_of_mem _ (List.mem_append_right _ hr)⟩

/-- The statements of every transaction committed in the loop are among the
statements the loop adds to the database. -/
theorem Shape_commit_kept (ids : List Int) (t : List Event) (err : Option Err)
    (eff : List String) (h : Shape ids t err eff) (j : Int) (p : List String)
    (hj : Event.commit j p none ∈ t) : p <:+: eff := by
  induction h with
  | done => simp at hj
  | lookupFail i ids e0 h => simp at hj
  | stepFail i ids b e0 eff h =>
    simp only [List.mem_cons] at hj
    rcases hj with hj | hj
    · simp at hj
    · rw [Step_commit_eff i b _ eff h j p hj]
  | stepOk i ids b t err eff eff1 h ht ih =>
    simp only [List.mem_cons, List.mem_append] at hj
    rcases hj with hj | hj | hj
    · simp at hj
    · rw [Step_commit_eff i b _ eff h j p hj]
      exact (List.prefix_append _ _).isInfix
    · exact List.IsInfix.trans (ih hj) (List.suffix_append _ _).isInfix

theorem Step_err_ctx (i : Int) (b : List Event) (e0 : Err) (eff : List String)
    (h : Step i b (some e0) eff) : ∃ e, e0 = Err.wrap "running migration" e := by
  cases h <;> exact ⟨_, rfl⟩

/-- The loop never returns a "no rows" lookup result as its error. -/
theorem Shape_err_not_norows (ids : List Int) (t : List Event) (err : Option Err)
    (eff : List String) (h : Shape ids t err eff) :
    err ≠ some (Err.wrap "looking up migration by id" Err.ErrNoRows) := by
  induction h with
  | done => simp
  | lookupFail i ids e0 h =>
    intro hc
    simp only [Option.some.injEq, Err.wrap.injEq, true_and] at hc
    exact h hc
  | stepFail i ids b e0 eff h =>
    intro hc
    obtain ⟨e1, he1⟩ := Step_err_ctx i b e0 eff h
    rw [he1] at hc
    simp only [Option.some.injEq, Err.wrap.injEq] at hc
    exact absurd hc.1 (by decide)
  | stepOk i ids b t err eff eff1 h ht ih => exact ih

theorem ids_ascending (n : Nat) :
    ((List.range n).map Int.ofNat).Pairwise (fun x y => x < y) := by
  rw [List.pairwise_map]
  exact (List.pairwise_lt_range n).imp (fun h => Int.ofNat_lt.mpr h)

theorem ids_split (n : Nat) (before after : List Int) (k : Int)
    (h : (List.range n).map Int.ofNat = before ++ k :: after) :
    before = (List.range k.toNat).map Int.ofNat ∧ k = (before.length : Int) := by
  have hlen : before.length < n := by
    have := congrArg List.length h
    simp at this
    omega
  have hk : k = (before.length : Int) := by
    have h1 := congrArg (fun l => l[before.length]?) h
    simp only [List.getElem?_map, List.getElem?_range hlen, Option.map_some] at h1
    rw [List.getElem?_append_right (Nat.le_refl _)] at h1
    simp at h1
    exact h1.symm
  refine ⟨?_, hk⟩
  have h2 := congrArg (List.take before.length) h
  rw [List.take_left, ← List.map_take, List.take_range] at h2
  rw [← h2, hk]
  simp [Nat.min_eq_left (Nat.le_of_lt hlen)]

theorem mem_appliesOf (t : List Event) (j : Int) :
    j ∈ appliesOf t ↔ ∃ r, Event.apply j r ∈ t := by
  unfold appliesOf
  rw [List.mem_filterMap]
  constructor
  · rintro ⟨ev, hev, h⟩
    cases ev <;> simp at h
    subst h
    exact ⟨_, hev⟩
  · rintro ⟨r, hr⟩
    exact ⟨_, hr, rfl⟩

/-- The calls of one `Run`: either the table bootstrap fails and nothing else
is called, or it succeeds and the loop follows. -/
theorem Run_cases (drv : Driver) (s : SqlxMigrate) (db : DB) (dialect : String) :
    ∃ eff, (s.Run drv db dialect).1.effects = db.effects ++ eff ∧
      ((∃ e, newEvents db (s.Run drv db dialect).1 = [Event.createTable (some e)] ∧
          (s.Run drv db dialect).2 = some (Err.wrap "creating migrations table" e)) ∨
       (∃ t, newEvents db (s.Run drv db dialect).1 = Event.createTable none :: t ∧
          Shape (s.Migrations.map (fun m => m.ID)) t (s.Run drv db dialect).2 eff)) := by
  obtain ⟨eff, hf, hs⟩ := Run_newEvents drv s db dialect
  refine ⟨eff, hf, ?_⟩
  generalize newEvents db (s.Run drv db dialect).1 = t at hs
  generalize (s.Run drv db dialect).2 = err at hs
  cases hs with
  | createFail e => exact Or.inl ⟨e, rfl, rfl⟩
  | looped t _ _ h => exact Or.inr ⟨t, rfl, h⟩

/-- Order of the calls of a `Run`, for any registry: the apply actions follow
the registry, at most one transaction is open at a time, and two apply
actions are separated by the commit of the earlier one. -/
theorem Run_order (drv : Driver) (s : SqlxMigrate) (db : DB) (dialect : String) :
    appliesOf (newEvents db (s.Run drv db dialect).1) <+: s.Migrations.map (fun m => m.ID) ∧
    (∀ n : Nat,
      closed ((newEvents db (s.Run drv db dialect).1).take n) ≤
        opened ((newEvents db (s.Run drv db dialect).1).take n) ∧
      opened ((newEvents db (s.Run drv db dialect).1).take n) ≤
        closed ((newEvents db (s.Run drv db dialect).1).take n) + 1) ∧
    (∀ (a b c : List Event) (i j : Int) (r q : Option Err),
      newEvents db (s.Run drv db dialect).1 =
        a ++ Event.apply i r :: (b ++ Event.apply j q :: c) →
      ∃ p, Event.commit i p none ∈ b) := by
  obtain ⟨eff, _, hc⟩ := Run_cases drv s db dialect
  rcases hc with ⟨e0, ht, _⟩ | ⟨t, ht, hs⟩
  · rw [ht]
    refine ⟨by simp [appliesOf], ?_, ?_⟩
    · intro n
      rcases n with _ | n <;> simp [opened, closed, List.countP_cons]
    · intro a b c i j r q h
      obtain ⟨a1, _, h1⟩ := strip_head _ _ a _ i r (by simp) h
      simp at h1
  · rw [ht]
    refine ⟨?_, ?_, ?_⟩
    · have happ : appliesOf (Event.createTable none :: t) = appliesOf t := by
        simp [appliesOf]
      rw [happ]
      exact Shape_applies_prefix _ t _ eff hs
    · intro n
      rcases n with _ | n
      · simp [opened, closed]
      · have := Shape_balance _ t _ eff hs n
        simpa [opened, closed, List.countP_cons] using this
    · intro a b c i j r q h
      obtain ⟨a1, _, h1⟩ := strip_head _ _ a _ i r (by simp) h
      exact Shape_commit_between _ t _ eff hs a1 b c i j r q h1

theorem Step_event_ids (i : Int) (b : List Event) (err : Option Err) (eff : List String)
    (h : Step i b err eff) (ev : Event) (hev : ev ∈ b) : ev.id? = some i := by
  have key : ∀ l : List Event, (∀ x ∈ l, x.id? = some i) → ev ∈ l → ev.id? = some i :=
    fun l hl hm => hl ev hm
  cases h <;> refine key _ ?_ hev <;> simp [Event.id?]

/-- With ascending identifiers, when executing migration `k` fails no call is
made for a later migration. -/
theorem Shape_failsAt_events (ids : List Int) (t : List Event) (err : Option Err)
    (eff : List String) (h : Shape ids t err eff) (k : Int) (e : Err)
    (hk : failsAt k e t) (hp : ids.Pairwise (fun x y => x < y)) (ev : Event) (hev : ev ∈ t)
    (j : Int) (hj : ev.id? = some j) : j ≤ k := by
  induction h with
  | done => simp at hev
  | lookupFail i ids e0 h => simp [failsAt] at hk
  | stepFail i ids b e0 eff h =>
    rw [failsAt_cons_lookup] at hk
    obtain ⟨h1, _⟩ := Step_fail_cause i b e0 eff h k e hk
    simp only [List.mem_cons] at hev
    rcases hev with hev | hev
    · subst hev
      simp only [Event.id?, Option.some.injEq] at hj
      rw [← hj, h1]
    · rw [Step_event_ids i b _ eff h ev hev, Option.some.injEq] at hj
      rw [← hj, h1]
  | stepOk i ids b t err eff eff1 h ht ih =>
    rw [failsAt_cons_lookup, failsAt_append] at hk
    rcases hk with hk | hk
    · exact absurd hk (Step_ok_no_fail i b eff h k e)
    · rw [List.pairwise_cons] at hp
      have hik : i < k := hp.1 k (Shape_failsAt_mem ids t err eff1 ht k e hk)
      simp only [List.mem_cons, List.mem_append] at hev
      rcases hev with hev | hev | hev
      · subst hev
        simp only [Event.id?, Option.some.injEq] at hj
        rw [← hj]
        exact le_of_lt hik
      · rw [Step_event_ids i b _ eff h ev hev, Option.some.injEq] at hj
        rw [← hj]
        exact le_of_lt hik
      · exact ih hk hp.2 hev

/-! ## The record insert against the bootstrapped table -/

theorem run_fails_without_column (drv : Driver) (s : SqlxMigrate) (db : DB) (m : SqlxMigration)
    (tb : Table) (h1 : db.tables.find? (fun x => x.name == "migrations") = some tb)
    (h2 : "id" ∉ tb.columns) : (s.run drv db m).2 ≠ none := by
  unfold SqlxMigrate.run
  simp only
  cases hb : DB.Beginx drv db with
  | error err => simp
  | ok tx =>
    simp only
    unfold DB.Exec
    cases hd : drv (db.emit (Event.begin m.ID none))
        (Call.Exec (Stmt.insertInto "migrations" "id") [m.ID]) with
    | some e => simp
    | none => simp [Stmt.eval, DB.emit, h1, h2]

theorem Get_keeps_table (drv : Driver) (db : DB) (t c : String) (args : List Int) (tb : Table)
    (h1 : db.tables.find? (fun x => x.name == t) = some tb) :
    (DB.Get drv db (Stmt.createTableIfNotExists t c) args).1.tables = db.tables := by
  have hany : db.tables.any (fun x => x.name == t) = true := by
    rw [List.any_eq_true]
    have hp := List.find?_some h1
    exact ⟨tb, List.mem_of_find?_eq_some h1, hp⟩
  unfold DB.Get
  cases drv db (Call.Get (Stmt.createTableIfNotExists t c) args) with
  | some e => rfl
  | none => simp [Stmt.eval, hany]

theorem loop_fails_without_column (drv : Driver) (s : SqlxMigrate) (m : SqlxMigration)
    (rest : List SqlxMigration) (db : DB) (tb : Table)
    (h1 : db.tables.find? (fun x => x.name == "migrations") = some tb)
    (h2 : "id" ∉ tb.columns) : (s.loop drv (m :: rest) db).2 ≠ none := by
  have hk := Get_keeps_table drv db "migrations" "version" [m.ID] tb h1
  have hr := Get_res drv db (Stmt.createTableIfNotExists "migrations" "version") [m.ID]
  unfold SqlxMigrate.loop
  simp only [SqlxMigrate.TableName, SqlxMigrate.ColumnName]
  rcases hG : DB.Get drv db (Stmt.createTableIfNotExists "migrations" "version") [m.ID]
    with ⟨db1, err⟩
  rw [hG] at hk hr
  simp only at hk hr
  simp only
  split
  · cases err with
    | none => exact absurd rfl hr
    | some e => simp
  · have hf := run_fails_without_column drv s (db1.emit (Event.lookup m.ID err)) m tb
      (by simpa [DB.emit, hk] using h1) h2
    unfold SqlxMigrate.runMigration
    rcases hR : s.run drv (db1.emit (Event.lookup m.ID err)) m with ⟨db2, _ | e2⟩
    · rw [hR] at hf
      exact absurd rfl hf
    · simp

/-! ## The registry -/

theorem addAll_Migrations (s : SqlxMigrate) (ms : List SqlxMigration) :
    (addAll s ms).Migrations = s.Migrations ++
      (ms.enumFrom s.Migrations.length).map (fun p => { p.2 with ID := (p.1 : Int) }) := by
  induction ms generalizing s with
  | nil => simp [addAll]
  | cons m rest ih =>
    have h := ih (s.Add m)
    simp only [addAll, List.foldl_cons] at h ⊢
    rw [h]
    simp [SqlxMigrate.Add, List.enumFrom_cons]

theorem addAll_New_get (ms : List SqlxMigration) (i : Nat) :
    (addAll New ms).Migrations[i]? = (ms[i]?).map (fun m => { m with ID := (i : Int) }) := by
  rw [addAll_Migrations]
  simp only [New, List.nil_append, List.length_nil, List.getElem?_map, List.getElem?_enumFrom]
  cases ms[i]? <;> simp

theorem addAll_New_ids (ms : List SqlxMigration) :
    (addAll New ms).Migrations.map (fun m => m.ID) = (List.range ms.length).map Int.ofNat := by
  apply List.ext_getElem?
  intro i
  rw [List.getElem?_map, List.getElem?_map, addAll_New_get]
  by_cases h : i < ms.length
  · rw [List.getElem?_eq_getElem h, List.getElem?_range h]
    rfl
  · have h1 : ms.length ≤ i := Nat.le_of_not_lt h
    rw [List.getElem?_eq_none h1, List.getElem?_eq_none (by simpa using h1)]
    rfl

/-- C1: after adding any sequence of `n` migrations to a registry made by
`New`, the registry holds exactly `n` migrations, and the one at position `i`
is the `i`-th added migration with its identifier set to `i`, the length of
the registry just before that `Add`. -/
theorem C1_add_assigns_position (ms : List SqlxMigration) :
    (addAll New ms).Migrations.length = ms.length ∧
    (∀ i : Nat, ((addAll New ms).Migrations[i]?).map (fun m => m.ID) =
      if i < ms.length then some (i : Int) else none) ∧
    (∀ i : Nat, (addAll New ms).Migrations[i]? =
      (ms[i]?).map (fun m => { m with ID := (i : Int) })) ∧
    (∀ (s : SqlxMigrate) (m : SqlxMigration),
      (s.Add m).Migrations = s.Migrations ++ [{ m with ID := (s.Migrations.length : Int) }]) := by
  refine ⟨?_, ?_, addAll_New_get ms, fun s m => rfl⟩
  · have h := congrArg List.length (addAll_New_ids ms)
    simpa using h
  · intro i
    rw [addAll_New_get]
    by_cases h : i < ms.length
    · simp [List.getElem?_eq_getElem h, h]
    · have h1 : ms.length ≤ i := Nat.le_of_not_lt h
      simp [List.getElem?_eq_none h1, h]

/-! ## Building a migration from SQL text -/

/-- C10: `QueryMigration` leaves the apply action absent exactly when the
apply text is empty and the revert action absent exactly when the revert text
is empty; a present action, run on a transaction, is one `tx.Exec` of its own
text: it returns that call's error unchanged, and on success the transaction
has run exactly that one statement more. -/
theorem C10_query_migration (id up down : String) (tx : Tx) :
    ((QueryMigration id up down).Up = none ↔ up = "") ∧
    ((QueryMigration id up down).Down = none ↔ down = "") ∧
    (((QueryMigration id up down).Up).map (fun f => f tx) =
      if up = "" then none else some (tx.Exec up)) ∧
    (((QueryMigration id up down).Down).map (fun f => f tx) =
      if down = "" then none else some (tx.Exec down)) ∧
    (∀ q, (tx.Exec q).2 = tx.fault tx.pending q ∧
      (tx.Exec q).1.pending = if (tx.Exec q).2 = none then tx.pending ++ [q] else tx.pending) := by
  refine ⟨?_, ?_, ?_, ?_, ?_⟩
  · unfold QueryMigration
    by_cases h : up = "" <;> simp [h]
  · unfold QueryMigration
    by_cases h : down = "" <;> simp [h]
  · unfold QueryMigration
    by_cases h : up = "" <;> simp [h]
  · unfold QueryMigration
    by_cases h : down = "" <;> simp [h]
  · intro q
    unfold Tx.Exec
    cases h : tx.fault tx.pending q <;> simp

/-! ## The runner -/

/-- C4: when executing migration `k` fails during `Run` (its begin, record,
apply or commit call returns `e`), `Run` returns the error of that execution,
`running migration: e`; no apply action of an identifier greater than `k` is
invoked in that `Run`, nor is any other call made for a later migration; and
the statements of every transaction committed in
the `Run`, like everything committed before it, are in the database
afterwards. -/
theorem C4_stop_on_first_failure (drv : Driver) (ms : List SqlxMigration) (db : DB)
    (dialect : String) (k : Int) (e : Err)
    (h : failsAt k e (newEvents db ((addAll New ms).Run drv db dialect).1)) :
    ((addAll New ms).Run drv db dialect).2 = some (Err.wrap "running migration" e) ∧
    (∀ j r, Event.apply j r ∈ newEvents db ((addAll New ms).Run drv db dialect).1 → j ≤ k) ∧
    (∀ ev j, ev ∈ newEvents db ((addAll New ms).Run drv db dialect).1 → ev.id? = some j →
      j ≤ k) ∧
    (∀ j p, Event.commit j p none ∈ newEvents db ((addAll New ms).Run drv db dialect).1 →
      p <:+: ((addAll New ms).Run drv db dialect).1.effects) ∧
    db.effects <+: ((addAll New ms).Run drv db dialect).1.effects := by
  obtain ⟨eff, hf, hc⟩ := Run_cases drv (addAll New ms) db dialect
  rcases hc with ⟨e0, ht, _⟩ | ⟨t, ht, hs⟩
  · rw [ht] at h
    simp [failsAt] at h
  · rw [ht] at h ⊢
    have hk : failsAt k e t := by
      simpa [failsAt] using h
    obtain ⟨h1, h2⟩ := Shape_failsAt _ t _ eff hs k e hk
    refine ⟨h1, ?_, ?_, ?_, ?_⟩
    · intro j r hj
      simp only [List.mem_cons] at hj
      rcases hj with hj | hj
      · simp at hj
      · rw [addAll_New_ids] at h2
        exact h2 (ids_ascending ms.length) j r hj
    · intro ev j hev hj
      simp only [List.mem_cons] at hev
      rcases hev with hev | hev
      · subst hev
        simp [Event.id?] at hj
      · have hp := ids_ascending ms.length
        rw [← addAll_New_ids] at hp
        exact Shape_failsAt_events _ t _ eff hs k e hk hp ev hev j hj
    · intro j p hj
      simp only [List.mem_cons] at hj
      rcases hj with hj | hj
      · simp at hj
      · rw [hf]
        exact List.IsInfix.trans (Shape_commit_kept _ t _ eff hs j p hj)
          (List.suffix_append _ _).isInfix
    · rw [hf]
      exact List.prefix_append _ _

/-- C7 (amended): when the apply action of migration `k` fails with cause `e`
during `Run`, `Run` returns `running migration: e`: the cause is recovered by
unwrapping, and the error carries the fixed context text only, no
identifier. -/
theorem C7_apply_failure_wrapped (drv : Driver) (s : SqlxMigrate) (db : DB) (dialect : String)
    (k : Int) (e : Err)
    (h : Event.apply k (some e) ∈ newEvents db (s.Run drv db dialect).1) :
    (s.Run drv db dialect).2 = some (Err.wrap "running migration" e) ∧
    (s.Run drv db dialect).2.bind Err.Unwrap = some e := by
  have key : (s.Run drv db dialect).2 = some (Err.wrap "running migration" e) := by
    obtain ⟨eff, _, hc⟩ := Run_cases drv s db dialect
    rcases hc with ⟨e0, ht, _⟩ | ⟨t, ht, hs⟩
    · rw [ht] at h
      simp at h
    · rw [ht] at h
      have hk : failsAt k e t := by
        refine Or.inr (Or.inr (Or.inl ?_))
        simpa using h
      exact (Shape_failsAt _ t _ eff hs k e hk).1
  refine ⟨key, ?_⟩
  rw [key]
  rfl

/-- C8 (amended): the lookup is made for each migration in turn, inside the
loop. When the lookup made for migration `k` fails with an error other than
"no rows", `Run` returns `looking up migration by id: e` and no apply action
of migration `k` or of a later migration has been invoked in that `Run`. A
"no rows" result is not treated as an error, in any `Run`: the migration it
was looked up for is executed next (its transaction is begun), and `Run`
never returns a "no rows" lookup result as its error. -/
theorem C8_lookup_failure (drv : Driver) (ms : List SqlxMigration) (db : DB)
    (dialect : String) :
    (∀ (k : Int) (e : Err),
      Event.lookup k (some e) ∈ newEvents db ((addAll New ms).Run drv db dialect).1 →
      e ≠ Err.ErrNoRows →
      ((addAll New ms).Run drv db dialect).2 =
        some (Err.wrap "looking up migration by id" e) ∧
      (∀ j r, Event.apply j r ∈ newEvents db ((addAll New ms).Run drv db dialect).1 →
        j < k)) ∧
    (∀ j, Event.lookup j (some Err.ErrNoRows) ∈
        newEvents db ((addAll New ms).Run drv db dialect).1 →
      ∃ r, Event.begin j r ∈ newEvents db ((addAll New ms).Run drv db dialect).1) ∧
    ((addAll New ms).Run drv db dialect).2 ≠
      some (Err.wrap "looking up migration by id" Err.ErrNoRows) := by
  obtain ⟨eff, _, hc⟩ := Run_cases drv (addAll New ms) db dialect
  rcases hc with ⟨e0, ht, he0⟩ | ⟨t, ht, hs⟩
  · rw [ht, he0]
    refine ⟨?_, ?_, ?_⟩
    · intro k e h
      simp at h
    · intro j h
      simp at h
    · intro hc
      simp only [Option.some.injEq, Err.wrap.injEq] at hc
      exact absurd hc.1 (by decide)
  · rw [ht]
    refine ⟨?_, ?_, Shape_err_not_norows _ t _ eff hs⟩
    · intro k e h hne
      have hk : Event.lookup k (some e) ∈ t := by simpa using h
      obtain ⟨h1, before, after, h2, h3⟩ := Shape_lookup_fail _ t _ eff hs k e hk hne
      rw [addAll_New_ids] at h2
      obtain ⟨h4, h5⟩ := ids_split ms.length before after k h2
      have happ : appliesOf (Event.createTable none :: t) = appliesOf t := by
        simp [appliesOf]
      refine ⟨h1, ?_⟩
      intro j r hj
      have hj1 : j ∈ appliesOf (Event.createTable none :: t) := (mem_appliesOf _ j).mpr ⟨r, hj⟩
      rw [happ, h3, h4, List.mem_map] at hj1
      obtain ⟨x, hx, hxj⟩ := hj1
      rw [List.mem_range] at hx
      rw [← hxj]
      have : (x : Int) < (k.toNat : Int) := Int.ofNat_lt.mpr hx
      have hk0 : 0 ≤ k := by rw [h5]; exact Int.ofNat_nonneg _
      rw [Int.toNat_of_nonneg hk0] at this
      exact this
    · intro j hj
      have hj1 : Event.lookup j (some Err.ErrNoRows) ∈ t := by simpa using hj
      obtain ⟨r, hr⟩ := Shape_norows_continues _ t _ eff hs j hj1
      exact ⟨r, List.mem_cons_of_mem _ hr⟩

/-- C9: in every `Run` the apply actions are invoked in registry order, one
per migration, so for a registry built with `Add` their identifiers are
strictly ascending; at every point of the `Run` at most one transaction is
open (begun and neither committed nor rolled back); and between the apply
actions of two migrations the transaction of the earlier one has
committed. -/
theorem C9_ordering (drv : Driver) (s : SqlxMigrate) (ms : List SqlxMigration) (db : DB)
    (dialect : String) :
    (appliesOf (newEvents db ((addAll New ms).Run drv db dialect).1)).Pairwise
      (fun x y => x < y) ∧
    appliesOf (newEvents db (s.Run drv db dialect).1) <+: s.Migrations.map (fun m => m.ID) ∧
    (∀ n : Nat,
      closed ((newEvents db (s.Run drv db dialect).1).take n) ≤
        opened ((newEvents db (s.Run drv db dialect).1).take n) ∧
      opened ((newEvents db (s.Run drv db dialect).1).take n) ≤
        closed ((newEvents db (s.Run drv db dialect).1).take n) + 1) ∧
    (∀ (a b c : List Event) (i j : Int) (r q : Option Err),
      newEvents db (s.Run drv db dialect).1 =
        a ++ Event.apply i r :: (b ++ Event.apply j q :: c) →
      ∃ p, Event.commit i p none ∈ b) := by
  have hpre := (Run_order drv (addAll New ms) db dialect).1
  rw [addAll_New_ids] at hpre
  exact ⟨(ids_ascending ms.length).sublist hpre.sublist, Run_order drv s db dialect⟩

/-! ## The runner on concrete registries -/

/-- Witness for C4: migration 1 fails on a database where migration 0 goes
through. -/
theorem C4_stop_on_first_failure_witness :
    failsAt 1 (Err.driver "boom")
      (newEvents legacyDB
        ((addAll New [createItems, alwaysFails]).Run Driver.ok legacyDB "sqlite3").1) ∧
    ((addAll New [createItems, alwaysFails]).Run Driver.ok legacyDB "sqlite3").2 =
      some (Err.wrap "running migration" (Err.driver "boom")) :=
  ⟨Or.inr (Or.inr (Or.inl (by decide))),
    (C4_stop_on_first_failure Driver.ok [createItems, alwaysFails] legacyDB "sqlite3" 1
      (Err.driver "boom") (Or.inr (Or.inr (Or.inl (by decide))))).1⟩

/-- C7 (as stated, refuted): no function of the returned error gives the
identifier of the failing migration. A registry failing at migration 0 and one
failing at migration 1 with the same cause return the same error. -/
theorem C7_error_does_not_identify_migration :
    ¬ ∃ idOf : Err → Int, ∀ (s : SqlxMigrate) (k : Int) (e : Err),
      Event.apply k (some e) ∈ newEvents legacyDB (s.Run Driver.ok legacyDB "sqlite3").1 →
      (s.Run Driver.ok legacyDB "sqlite3").2.map idOf = some k := by
  rintro ⟨idOf, h⟩
  have h0 := h (addAll New [alwaysFails]) 0 (Err.driver "boom") (by decide)
  have h1 := h (addAll New [createItems, alwaysFails]) 1 (Err.driver "boom") (by decide)
  have e0 : ((addAll New [alwaysFails]).Run Driver.ok legacyDB "sqlite3").2 =
      some (Err.wrap "running migration" (Err.driver "boom")) := by decide
  have e1 : ((addAll New [createItems, alwaysFails]).Run Driver.ok legacyDB "sqlite3").2 =
      some (Err.wrap "running migration" (Err.driver "boom")) := by decide
  rw [e0] at h0
  rw [e1] at h1
  have h2 : (0 : Int) = 1 :=
    (Option.some.inj h0).symm.trans (Option.some.inj h1)
  exact absurd h2 (by decide)

/-- Witness for C7 (amended). -/
theorem C7_apply_failure_wrapped_witness :
    Event.apply 1 (some (Err.driver "boom")) ∈ newEvents legacyDB
      ((addAll New [createItems, alwaysFails]).Run Driver.ok legacyDB "sqlite3").1 ∧
    ((addAll New [createItems, alwaysFails]).Run Driver.ok legacyDB "sqlite3").2.bind
      Err.Unwrap = some (Err.driver "boom") :=
  ⟨by decide,
    (C7_apply_failure_wrapped Driver.ok (addAll New [createItems, alwaysFails]) legacyDB
      "sqlite3" 1 (Err.driver "boom") (by decide)).2⟩

/-- C8 (as stated, refuted): the lookup for migration 1 fails with an error
other than "no rows" and `Run` returns an error, yet the apply action of
migration 0 has been invoked and committed in that `Run`. -/
theorem C8_lookup_fails_after_apply :
    Event.lookup 1 (some (Err.driver "connection lost")) ∈ newEvents legacyDB
      ((addAll New [createItems, addPrice]).Run lookupFailsAt1 legacyDB "sqlite3").1 ∧
    Err.driver "connection lost" ≠ Err.ErrNoRows ∧
    ((addAll New [createItems, addPrice]).Run lookupFailsAt1 legacyDB "sqlite3").2 =
      some (Err.wrap "looking up migration by id" (Err.driver "connection lost")) ∧
    Event.apply 0 none ∈ newEvents legacyDB
      ((addAll New [createItems, addPrice]).Run lookupFailsAt1 legacyDB "sqlite3").1 ∧
    ((addAll New [createItems, addPrice]).Run lookupFailsAt1 legacyDB "sqlite3").1.effects =
      ["CREATE TABLE IF NOT EXISTS items (id INTEGER)"] := by
  decide

/-- Witness for C8 (amended): the lookup made for migration 1 fails; the
lookup made for migration 0 reports "no rows" and migration 0 is executed. -/
theorem C8_lookup_failure_witness :
    (Event.lookup 1 (some (Err.driver "connection lost")) ∈ newEvents legacyDB
      ((addAll New [createItems, addPrice]).Run lookupFailsAt1 legacyDB "sqlite3").1 ∧
    Err.driver "connection lost" ≠ Err.ErrNoRows ∧
    ((addAll New [createItems, addPrice]).Run lookupFailsAt1 legacyDB "sqlite3").2 =
      some (Err.wrap "looking up migration by id" (Err.driver "connection lost"))) ∧
    (Event.lookup 0 (some Err.ErrNoRows) ∈ newEvents legacyDB
      ((addAll New [createItems, addPrice]).Run lookupFailsAt1 legacyDB "sqlite3").1 ∧
    ∃ r, Event.begin 0 r ∈ newEvents legacyDB
      ((addAll New [createItems, addPrice]).Run lookupFailsAt1 legacyDB "sqlite3").1) :=
  ⟨⟨by decide, by decide,
    ((C8_lookup_failure lookupFailsAt1 [createItems, addPrice] legacyDB "sqlite3").1 1
      (Err.driver "connection lost") (by decide) (by decide)).1⟩,
   ⟨by decide,
    (C8_lookup_failure lookupFailsAt1 [createItems, addPrice] legacyDB "sqlite3").2.1 0
      (by decide)⟩⟩

/-- Witness for C9: in the two-migration scenario the apply actions of
migrations 0 and 1 are separated by the commit of migration 0. -/
theorem C9_ordering_witness :
    ∃ p, Event.commit 0 p none ∈
      [Event.commit 0 ["CREATE TABLE IF NOT EXISTS items (id INTEGER)"] none,
        Event.lookup 1 (some Err.ErrNoRows), Event.begin 1 none, Event.record 1 none] :=
  (C9_ordering Driver.ok (addAll New [createItems, addPrice]) [createItems, addPrice] legacyDB
    "sqlite3").2.2.2
    [Event.createTable none, Event.lookup 0 (some Err.ErrNoRows), Event.begin 0 none,
      Event.record 0 none]
    [Event.commit 0 ["CREATE TABLE IF NOT EXISTS items (id INTEGER)"] none,
      Event.lookup 1 (some Err.ErrNoRows), Event.begin 1 none, Event.record 1 none]
    [Event.commit 1 ["ALTER TABLE items ADD COLUMN price INTEGER"] none]
    0 1 none none (by decide)

/-- C2 (code at the failing input): on a database whose table `migrations`
has the column `id`, both runs succeed, and the second run invokes the apply
actions of migrations 0 and 1 again, executes their statements again and
writes their rows again. -/
theorem C2_second_run_applies_again :
    firstRun.2 = none ∧ secondRun.2 = none ∧
    appliesOf (newEvents firstRun.1 secondRun.1) = [0, 1] ∧
    firstRun.1.effects = ["CREATE TABLE IF NOT EXISTS items (id INTEGER)",
      "INSERT INTO items (id) VALUES (1)"] ∧
    secondRun.1.effects = ["CREATE TABLE IF NOT EXISTS items (id INTEGER)",
      "INSERT INTO items (id) VALUES (1)", "CREATE TABLE IF NOT EXISTS items (id INTEGER)",
      "INSERT INTO items (id) VALUES (1)"] ∧
    storeRows New firstRun.1 = [("id", 0), ("id", 1)] ∧
    storeRows New secondRun.1 = [("id", 0), ("id", 1), ("id", 0), ("id", 1)] := by
  decide

/-- C3 (code at the failing input): with migration 0 succeeding and
migration 1 failing, `Run` on the empty database stops at migration 0, whose
record insert names a column the bootstrapped table does not have: no
identifier is recorded and no apply action is invoked. On a database whose
table has that column, identifier 1 is recorded although its apply action
failed and was rolled back. -/
theorem C3_failure_leaves_wrong_record :
    ((addAll New [createItems, alwaysFails]).Run Driver.ok DB.empty "sqlite3").2 =
      some (Err.wrap "running migration" (Err.noSuchColumn "migrations" "id")) ∧
    appliedIDs New
      ((addAll New [createItems, alwaysFails]).Run Driver.ok DB.empty "sqlite3").1 = [] ∧
    appliesOf (newEvents DB.empty
      ((addAll New [createItems, alwaysFails]).Run Driver.ok DB.empty "sqlite3").1) = [] ∧
    ((addAll New [createItems, alwaysFails]).Run Driver.ok legacyDB "sqlite3").2 =
      some (Err.wrap "running migration" (Err.driver "boom")) ∧
    storeRows New
      ((addAll New [createItems, alwaysFails]).Run Driver.ok legacyDB "sqlite3").1 =
      [("id", 0), ("id", 1)] ∧
    ((addAll New [createItems, alwaysFails]).Run Driver.ok legacyDB "sqlite3").1.effects =
      ["CREATE TABLE IF NOT EXISTS items (id INTEGER)"] := by
  decide

/-- C6 (code at the failing input): the apply action of migration 0 succeeds
and its commit fails. `Run` returns the error and the migration's statement is
not in the database, but the row written for identifier 0 is: it was written
with `db.Exec`, outside the transaction. -/
theorem C6_record_survives_failed_commit :
    ((addAll New [createItems]).Run commitFails legacyDB "sqlite3").2 =
      some (Err.wrap "running migration" (Err.driver "commit failed")) ∧
    newEvents legacyDB ((addAll New [createItems]).Run commitFails legacyDB "sqlite3").1 =
      [Event.createTable none, Event.lookup 0 (some Err.ErrNoRows), Event.begin 0 none,
        Event.record 0 none, Event.apply 0 none,
        Event.commit 0 ["CREATE TABLE IF NOT EXISTS items (id INTEGER)"]
          (some (Err.driver "commit failed"))] ∧
    ((addAll New [createItems]).Run commitFails legacyDB "sqlite3").1.effects = [] ∧
    storeRows New ((addAll New [createItems]).Run commitFails legacyDB "sqlite3").1 =
      [("id", 0)] := by
  decide

/-- C5 (code at the failing input): on the empty database `Run` never
succeeds for a registry with at least one migration, whatever the driver
does: the bootstrap creates the table with the column `version` and the
record insert of the first migration names the column `id`. In the spec's
two-migration scenario `Run` returns that error, the applied-ids record is
empty and no statement of a migration is in the database. -/
theorem C5_empty_database_run_fails :
    (∀ (drv : Driver) (m : SqlxMigration) (ms : List SqlxMigration) (dialect : String),
      ((addAll New (m :: ms)).Run drv DB.empty dialect).2 ≠ none) ∧
    ((addAll New [createItems, addPrice]).Run Driver.ok DB.empty "sqlite3").2 =
      some (Err.wrap "running migration" (Err.noSuchColumn "migrations" "id")) ∧
    appliedIDs New
      ((addAll New [createItems, addPrice]).Run Driver.ok DB.empty "sqlite3").1 = [] ∧
    ((addAll New [createItems, addPrice]).Run Driver.ok DB.empty "sqlite3").1.tables =
      [{ name := "migrations", columns := ["version"], rows := [] }] ∧
    ((addAll New [createItems, addPrice]).Run Driver.ok DB.empty "sqlite3").1.effects = [] := by
  refine ⟨?_, by decide, by decide, by decide, by decide⟩
  intro drv m ms dialect
  have hm : (addAll New (m :: ms)).Migrations =
      { m with ID := 0 } :: (addAll New (m :: ms)).Migrations.tail := by
    rw [addAll_Migrations]
    simp [New, List.enumFrom_cons]
  unfold SqlxMigrate.Run SqlxMigrate.createMigrationTable NewDb DB.Exec
  simp only
  cases hd : drv DB.empty (Call.Exec (Stmt.createTableIfNotExists
      (addAll New (m :: ms)).TableName (addAll New (m :: ms)).ColumnName) []) with
  | some e => simp
  | none =>
    simp only [Stmt.eval, DB.empty, List.any_nil, Bool.false_eq_true, if_false, List.nil_append]
    rw [hm]
    exact loop_fails_without_column drv _ _ _ _
      { name := "migrations", columns := ["version"], rows := [] }
      (by simp [DB.emit, SqlxMigrate.TableName, SqlxMigrate.ColumnName]) (by decide)

end Migrate
